import Mathlib

/-!
# Verification of the Isca GFDL run-lifecycle and configuration engine

Shallow embedding of `src/extra/python/gfdl/experiment.py` (module `gfdl`):
the namelist store, the diagnostic table (`DiagTable`), and the run
lifecycle state machine (`Experiment.run`, `Experiment.derive`,
`Experiment.run_parameter_sweep`, `Experiment.update_namelist`,
`Experiment.rebuild_namelist`).

Python dictionaries are modelled as insertion-ordered association lists
(`dictSet` replaces in place, `dictGet?` finds the binding; keys of a
Python dict are unique, so replacing the first binding is dict-assignment).
The filesystem is modelled as a set of directory paths and file paths;
the external simulation process is an oracle parameter (`ProcOutcome`)
saying whether the child process completes, fails, or is interrupted.
-/

namespace Gfdl

/-- A namelist parameter value (scalar values occurring in the claims). -/
inductive Val where
  | int (n : Int)
  | str (s : String)
  | bool (b : Bool)
deriving DecidableEq, Repr

/-- Python `d[k]`: the value bound to `k`, if any. -/
def dictGet? (d : List (String × α)) (k : String) : Option α :=
  (d.find? (fun p => p.1 = k)).map (·.2)

/-- Python `d[k] = v`: replace the binding in place if `k` is present
(keys of a `dict` are unique, so the first binding is the binding),
otherwise append it at the end (insertion-order semantics of `dict`). -/
def dictSet (d : List (String × α)) (k : String) (v : α) : List (String × α) :=
  match d with
  | [] => [(k, v)]
  | p :: rest => if p.1 = k then (k, v) :: rest else p :: dictSet rest k v

/-- Python `d.update(e)`: assign each of `e`'s bindings into `d` in order. -/
def dictUpdate (d e : List (String × α)) : List (String × α) :=
  e.foldl (fun acc p => dictSet acc p.1 p.2) d

/-- Python `k in d`. -/
def dictMem (d : List (String × α)) (k : String) : Bool :=
  d.any (fun p => p.1 = k)

/-! ## DiagTable (`class DiagTable`) -/

/-- One entry appended by `DiagTable.add_field`:
`{'module': module, 'name': name, 'time_avg': time_avg}`. -/
structure Field where
  module : String
  name : String
  time_avg : Bool
deriving DecidableEq, Repr

/-- One output-file record created by `DiagTable.add_file`:
`{'name':…, 'freq':…, 'units':…, 'time_units':…, 'fields': […]}`. -/
structure FileRec where
  name : String
  freq : Int
  units : String
  time_units : String
  fields : List Field
deriving DecidableEq, Repr

/-- `DiagTable.__init__` builds `self.files = {}`; the dict maps file name
to its record. -/
structure DiagTable where
  files : List (String × FileRec)
deriving DecidableEq, Repr

/-- `DiagTable()` : `self.files = {}`. -/
def DiagTable.empty : DiagTable := ⟨[]⟩

/-- `DiagTable.add_file(name, freq, units="hours", time_units=None)`:
`time_units` defaults to `units`; `self.files[name] = {...,'fields': []}`
assigns a brand-new record dict (with an empty field list) to the key,
replacing any record previously stored under `name`. -/
def DiagTable.add_file (d : DiagTable) (name : String) (freq : Int)
    (units : String) (time_units : Option String) : DiagTable :=
  let tu := time_units.getD units
  ⟨dictSet d.files name ⟨name, freq, units, tu, []⟩⟩

/-- `DiagTable.add_field(module, name, time_avg=False, files=None)`:
if `files is None` it is `self.files.keys()` (the file names present at
call time); then for each name, `self.files[fname]['fields'].append(...)`.
A name not present in the dict raises `KeyError` (modelled by `none`). -/
def DiagTable.add_field (d : DiagTable) (module fieldName : String)
    (time_avg : Bool) (files : Option (List String)) : Option DiagTable :=
  let fnames := files.getD (d.files.map Prod.fst)
  fnames.foldlM (fun t fname =>
    match dictGet? t.files fname with
    | some r =>
        some ⟨dictSet t.files fname
          { r with fields := r.fields ++ [⟨module, fieldName, time_avg⟩] }⟩
    | none => none) d

/-- `DiagTable.copy()`: `d.files = copy.deepcopy(self.files)` — a deep,
independent clone, which on immutable values is the value itself. -/
def DiagTable.copy (d : DiagTable) : DiagTable := d

/-! ## Namelist operations -/

/-- A namelist section: parameter name → value. -/
abbrev NmlSec := List (String × Val)

/-- A namelist: section name → section (as parsed by `f90nml.read`). -/
abbrev Namelist := List (String × NmlSec)

/-- Python exception outcomes relevant to the lifecycle. -/
inductive PyErr where
  | valueError
  | keyError
  | attributeError
  | nameError
  | shError
  | procError
deriving DecidableEq, Repr

/-- `Experiment.rebuild_namelist`: `namelist = f90nml.read(files[0])`, then
`namelist.update(f90nml.read(nl))` for each remaining file, in order. The
parsed sources are passed in as values. `update` is `dict.update` at the
*top* level (f90nml's namelist class subclasses `dict` and does not
override `update`), so a colliding section name makes the later source's
entire section replace the earlier one. -/
def rebuild_namelist (first : Namelist) (rest : List Namelist) : Namelist :=
  rest.foldl (fun acc nl => dictUpdate acc nl) first

/-- `Experiment.update_namelist(new_vals)`: for each section `sec` of
`new_vals`, `nml = self.namelist.setdefault(sec, {})` then
`nml.update(new_vals[sec])` — per-key overwrite inside the section,
creating the section if absent. -/
def update_namelist (nml : Namelist) (new_vals : Namelist) : Namelist :=
  new_vals.foldl (fun acc p =>
    dictSet acc p.1 (dictUpdate ((dictGet? acc p.1).getD []) p.2)) nml

/-- Python `s.lower()`, on the character list. -/
def strLower (s : String) : String := ⟨s.data.map Char.toLower⟩

/-- Python `s.startswith(pre)`, on the character list. -/
def strStartsWith (s pre : String) : Bool := pre.data.isPrefixOf s.data

/-- Python shell glob suffix test (`*.nc`), on the character list. -/
def strEndsWith (s post : String) : Bool := post.data.isSuffixOf s.data

/-- The calendar flag computed inside `Experiment.write_diag_table`:
`not self.namelist['main_nml']['calendar'].lower().startswith('no_calendar')`.
A missing section or key raises `KeyError`; a non-string value has no
`.lower()` and raises `AttributeError`. -/
def calendarFlag (nml : Namelist) : Except PyErr Bool :=
  match dictGet? nml "main_nml" with
  | none => .error .keyError
  | some sec =>
    match dictGet? sec "calendar" with
    | none => .error .keyError
    | some (Val.str c) => .ok (!(strStartsWith (strLower c) "no_calendar"))
    | some _ => .error .attributeError

/-- `Experiment.write_diag_table(outdir)`: if `len(self.diag_table.files)`
is nonzero, render the template from the calendar flag and the file
records (`self.diag_table.files.values()`); otherwise log an error and
`raise ValueError()` — nothing is rendered. -/
def write_diag_table (dt : DiagTable) (nml : Namelist) :
    Except PyErr (Bool × List FileRec) :=
  if dt.files.length ≠ 0 then
    (calendarFlag nml).map (fun c => (c, dt.files.map Prod.snd))
  else .error .valueError

/-! ## Filesystem model

Paths are lists of components; `os.path.join(a, b)` (the module's `P`)
appends the component `b`. No component contains a separator, so two
paths are equal exactly when their component lists are. -/

abbrev Path := List String

/-- `P(a, b)` = `os.path.join(a, b)`. -/
def pjoin (a : Path) (b : String) : Path := a ++ [b]

/-- The filesystem: the set of directories and the set of regular files
currently existing, each named by its path. -/
structure FS where
  dirs : List Path
  files : List Path
deriving DecidableEq, Repr

def FS.isdir (fs : FS) (p : Path) : Bool := fs.dirs.contains p

def FS.isfile (fs : FS) (p : Path) : Bool := fs.files.contains p

/-- `p` lies at or below `root`. -/
def underPath (root p : Path) : Bool := root.isPrefixOf p

/-- `sh.rm('-r', p)`: remove `p` and everything below it. -/
def FS.rmTree (fs : FS) (p : Path) : FS :=
  ⟨fs.dirs.filter (fun d => !underPath p d), fs.files.filter (fun f => !underPath p f)⟩

/-- `mkdir -p p` (the module's `mkdir = sh.mkdir.bake('-p')`). -/
def FS.mkdirp (fs : FS) (p : Path) : FS :=
  if fs.dirs.contains p then fs else ⟨fs.dirs ++ [p], fs.files⟩

/-- Create (or overwrite) the regular file at `p`. -/
def FS.addFile (fs : FS) (p : Path) : FS :=
  if fs.files.contains p then fs else ⟨fs.dirs, fs.files ++ [p]⟩

/-- `sh.rm(p)` on a single file: `ErrorReturnCode_1` (here `none`) when
`p` does not exist. -/
def FS.rmFile? (fs : FS) (p : Path) : Option FS :=
  if fs.files.contains p then some ⟨fs.dirs, fs.files.filter (· ≠ p)⟩ else none

/-- `os.path.split(filename)[1]`: the last path component. -/
def basename (p : Path) : String := p.getLast?.getD ""

/-! ## Experiment -/

/-- The experiment state relevant to the run lifecycle. -/
structure Experiment where
  name : String
  workdir : Path
  execdir : Path
  restartdir : Path
  rundir : Path
  datadir : Path
  namelist : Namelist
  diag_table : DiagTable
  inputfiles : List Path
  overwrite_data : Bool
deriving Repr

/-- The directory layout set up by `Experiment.__init__` (with
`run_idb=False` and no git repo): `workdir = GFDL_WORK/name`,
`execdir = workdir/exec`, `restartdir = workdir/restarts`,
`rundir = workdir/run`, `datadir = GFDL_DATA/name`. The namelist, diag
table, input files and `overwrite_data` flag are the configurable state. -/
def mkExperiment (gfdl_work gfdl_data : Path) (name : String) (nml : Namelist)
    (dt : DiagTable) (inputfiles : List Path) (overwrite_data : Bool) : Experiment :=
  let workdir := pjoin gfdl_work name
  { name := name
    workdir := workdir
    execdir := pjoin workdir "exec"
    restartdir := pjoin workdir "restarts"
    rundir := pjoin workdir "run"
    datadir := pjoin gfdl_data name
    namelist := nml
    diag_table := dt
    inputfiles := inputfiles
    overwrite_data := overwrite_data }

/-- `Experiment.get_restart_file(month)` =
`P(self.restartdir, 'res_%d.cpio' % month)`. -/
def Experiment.get_restart_file (e : Experiment) (month : Int) : Path :=
  pjoin e.restartdir ("res_" ++ toString month ++ ".cpio")

/-- Python `'%03d' % n`: decimal with zeros padding to width 3. -/
def fmt03 (n : Int) : String :=
  if n < 0 then
    let s := toString n.natAbs
    "-" ++ (if s.length < 2 then String.mk (List.replicate (2 - s.length) '0') ++ s else s)
  else
    let s := toString n
    if s.length < 3 then String.mk (List.replicate (3 - s.length) '0') ++ s else s

/-- The month-indexed output directory `P(self.datadir, 'run%03d' % month)`. -/
def Experiment.outdir (e : Experiment) (month : Int) : Path :=
  pjoin e.datadir ("run" ++ fmt03 month)

/-- `Experiment.clear_rundir`: `sh.rm('-r', rundir)` (absence tolerated:
`ErrorReturnCode_1` is caught and only logged) then `mkdir -p rundir`. -/
def Experiment.clear_rundir (e : Experiment) (fs : FS) : FS :=
  (fs.rmTree e.rundir).mkdirp e.rundir

/-! ## The run state machine (`Experiment.run`) -/

/-- Behaviour of the external child process
(`sh.bash(runmonth.sh, _bg=True)` followed by `proc.wait()`): either the
wait completes, leaving the given `*.res*` state files in
`rundir/RESTART` and the given netCDF output files in `rundir`; or the
wait raises `KeyboardInterrupt`; or it raises some other exception
(non-zero exit of the child, or a monitoring failure). -/
inductive ProcOutcome where
  | ok (stateFiles : List String) (ncFiles : List String)
  | interrupt
  | failed
deriving DecidableEq, Repr

/-- How `Experiment.run` terminates: `return b`, an uncaught Python
exception, or `exit(code)` (i.e. `SystemExit`). -/
inductive RunResult where
  | returned (b : Bool)
  | raised (err : PyErr)
  | systemExit (code : Nat)
deriving DecidableEq, Repr

/-- The execution parameters handed to the external executable through the
`runmonth.sh` template: the month index and the restart artifact to use
(`none` = cold start). -/
structure LaunchCfg where
  month : Int
  restart_file : Option Path
deriving DecidableEq, Repr

/-- Observable outcome of one `run` invocation: the Python-level result,
the final filesystem, and the launch configuration (`none` when `run`
terminated before the child process was launched). -/
structure RunOut where
  result : RunResult
  fs : FS
  launch : Option LaunchCfg
deriving DecidableEq, Repr

/-- `for filename in self.inputfiles: sh.cp([filename, P(indir, …)])`:
copy each declared input file into the staging input area; `sh.cp` raises
when a source file is absent (`false` flag, with the filesystem as copied
so far). -/
def copyInputs : List Path → Path → FS → FS × Bool
  | [], _, fs => (fs, true)
  | f :: rest, indir, fs =>
      if fs.isfile f then copyInputs rest indir (fs.addFile (pjoin indir (basename f)))
      else (fs, false)

/-- Stages of `Experiment.run` after the pre-existing-output check, in
source order: `mkdir([indir, P(rundir,'RESTART'), restartdir])`; writing
`input.nml`, `field_table` and `diag_table` into the run directory (the
diag table raising when it has no files); copying the declared input
files; resolving the restart dependency (`exit(2)` when the derived
artifact is missing); rendering `runmonth.sh`; launching and waiting on
the child process; on success `mkdir(outdir)`, archiving
`RESTART/*.res*` into `restartdir/res_<month>.cpio`, removing `RESTART`,
moving results (everything, or under `light` only `*.nc` plus the new
restart archive, pruning month−1's restart archive and copied restart),
and finally `clear_rundir`. The preparation stage
`mkdir([indir, P(rundir,'RESTART'), restartdir])`; `write_namelist`;
`write_field_table` is split out as `prepFS`. -/
def Experiment.prepFS (e : Experiment) (fs : FS) : FS :=
  let fs := ((fs.mkdirp (pjoin e.rundir "INPUT")).mkdirp
    (pjoin e.rundir "RESTART")).mkdirp e.restartdir
  (fs.addFile (pjoin e.rundir "input.nml")).addFile (pjoin e.rundir "field_table")

/-- The launch-and-archive stage of `Experiment.run`: render `runmonth.sh`
into the run directory, launch and wait on the child process
(`try: proc = sh.bash(...); proc.wait() except KeyboardInterrupt: kill;
clear_rundir; return False except Exception: kill; raise`), and on
completion `mkdir(outdir)`, archive `RESTART/*.res*` into
`restartdir/res_<month>.cpio`, remove `RESTART`, move the results (all of
`rundir`, or under `light` only the `*.nc` files and the new restart
archive, pruning month−1's restart archive and copied restart), then
`clear_rundir` and `return True`. -/
def Experiment.launchStage (e : Experiment) (month : Int) (rf : Option Path)
    (light : Bool) (proc : ProcOutcome) (fs2 : FS) : RunOut :=
  let outdir := e.outdir month
  let fs3 := fs2.addFile (pjoin e.rundir "runmonth.sh")
  let launch := some (⟨month, rf⟩ : LaunchCfg)
  match proc with
  | .interrupt =>
      -- `except KeyboardInterrupt`: kill the child, `clear_rundir`, `return False`
      ⟨.returned false, e.clear_rundir fs3, launch⟩
  | .failed =>
      -- `except Exception as e`: kill the child and `raise e`
      -- (the run directory is NOT cleared on this path)
      ⟨.raised .procError, fs3, launch⟩
  | .ok stateFiles ncFiles =>
  let fs4 := stateFiles.foldl (fun a f => a.addFile (pjoin (pjoin e.rundir "RESTART") f)) fs3
  let fs4 := ncFiles.foldl (fun a f => a.addFile (pjoin e.rundir f)) fs4
  let fs4 := fs4.mkdirp outdir
  let archive := pjoin e.restartdir ("res_" ++ toString month ++ ".cpio")
  let fs4 := fs4.addFile archive
  let fs4 := fs4.rmTree (pjoin e.rundir "RESTART")
  if light then
    -- `os.system("cp -a <rundir>/*.nc <outdir>")`: direct children matching the glob
    let ncs := fs4.files.filter (fun f =>
      f.length = e.rundir.length + 1 && underPath e.rundir f && strEndsWith (basename f) ".nc")
    let fs5 := ncs.foldl (fun a f => a.addFile (pjoin outdir (basename f))) fs4
    let fs5 := fs5.addFile (pjoin outdir ("res_" ++ toString month ++ ".cpio"))
    if month > 1 then
      -- `try: sh.rm(restartdir/res_<m-1>.cpio) except ErrorReturnCode_1: warn`
      let fs6 := (fs5.rmFile? (e.get_restart_file (month - 1))).getD fs5
      -- `sh.rm(P(datadir, 'run%03d'%(m-1), 'res_%d.cpio'%(m-1)))` — not guarded
      match fs6.rmFile? (pjoin (e.outdir (month - 1)) ("res_" ++ toString (month - 1) ++ ".cpio")) with
      | none => ⟨.raised .shError, fs6, launch⟩
      | some fs7 => ⟨.returned true, e.clear_rundir fs7, launch⟩
    else
      ⟨.returned true, e.clear_rundir fs5, launch⟩
  else
    -- `sh.cp(['-a', rundir+'/.', outdir])`: replicate the whole tree
    let copiedFiles := fs4.files.filterMap (fun f =>
      if underPath e.rundir f then some (outdir ++ f.drop e.rundir.length) else none)
    let copiedDirs := fs4.dirs.filterMap (fun d =>
      if underPath e.rundir d && d ≠ e.rundir then some (outdir ++ d.drop e.rundir.length) else none)
    let fs5 := copiedDirs.foldl (fun a d => a.mkdirp d) fs4
    let fs5 := copiedFiles.foldl (fun a f => a.addFile f) fs5
    ⟨.returned true, e.clear_rundir fs5, launch⟩

def Experiment.runBody (e : Experiment) (month : Int) (restart_file : Option Path)
    (use_restart : Bool) (light : Bool) (proc : ProcOutcome) (fs : FS) : RunOut :=
  let indir := pjoin e.rundir "INPUT"
  let fs := e.prepFS fs
  match write_diag_table e.diag_table e.namelist with
  | .error err => ⟨.raised err, fs, none⟩
  | .ok _ =>
  let fs := fs.addFile (pjoin e.rundir "diag_table")
  match copyInputs e.inputfiles indir fs with
  | (fs2, false) => ⟨.raised .shError, fs2, none⟩
  | (fs2, true) =>
  if use_restart then
    let rf := restart_file.getD (e.get_restart_file (month - 1))
    if fs2.isfile rf then e.launchStage month (some rf) light proc fs2
    else ⟨.systemExit 2, fs2, none⟩   -- `log.error(...); exit(2)`
  else e.launchStage month none light proc fs2

/-- `Experiment.run(month, restart_file=None, use_restart=True, …)`:
the pre-existing-output check — if `outdir` exists and neither the
experiment-level nor the call-level `overwrite_data` flag is set, log and
`return False` with no mutation; if it exists and overwrite is allowed,
`sh.rm('-r', outdir)` first — followed by the run body. -/
def Experiment.run (e : Experiment) (month : Int) (restart_file : Option Path)
    (use_restart : Bool) (overwrite_data : Bool) (light : Bool)
    (proc : ProcOutcome) (fs : FS) : RunOut :=
  let outdir := e.outdir month
  if fs.isdir outdir then
    if e.overwrite_data || overwrite_data then
      e.runBody month restart_file use_restart light proc (fs.rmTree outdir)
    else
      ⟨.returned false, fs, none⟩
  else
    e.runBody month restart_file use_restart light proc fs

/-- The run directory holds no files (the state `clear_rundir` leaves the
scratch area in). -/
def scratchClean (e : Experiment) (fs : FS) : Bool :=
  fs.files.all (fun f => !underPath e.rundir f)

/-! ## Parameter sweep enumeration (`Experiment.run_parameter_sweep`)

The method's docstring promises one independent study per combination of
parameter values. The body computes
`params = [[(a,b,val) for val in values] for a,b,values in params]` and
then `parameter_space = itertools.product(params)`. Two facts about the
source: the module never imports `itertools`, so the call raises
`NameError` before anything is derived; and even granting the import,
`product` is applied to the single iterable `params` (not `product(*params)`),
so it yields one 1-tuple per *axis* instead of the cartesian product.
The definitions below model the enumeration with the import granted. -/

/-- One swept axis: the `(sec, name, val)` triples built for one
parameter, i.e. one inner list of `params`. -/
abbrev Axis := List (String × String × Val)

/-- `params = [(sec, name, values) for sec, parameters in … for name, values in …]`
followed by `params = [[(a,b,val) for val in values] for a,b,values in params]`. -/
def sweepAxes (pv : List (String × List (String × List Val))) : List Axis :=
  (pv.flatMap (fun p => p.2.map (fun q => (p.1, q.1, q.2)))).map
    (fun t => t.2.2.map (fun v => (t.1, t.2.1, v)))

/-- `itertools.product(params)` as written — applied to the single
iterable `params`, with no `*`-unpacking — yields one 1-tuple `(axis,)`
per element of `params`. -/
def productNoUnpack (axes : List Axis) : List (List Axis) :=
  axes.map (fun a => [a])

/-- Python unpacking `sec, name, val = elem` of a 3-target assignment:
succeeds only when `elem` has exactly three items, otherwise raises
`ValueError: not enough values to unpack`. -/
def unpack3 : List α → Option (α × α × α)
  | [x, y, z] => some (x, y, z)
  | _ => none

/-- The loop `for combo in parameter_space: … for sec, name, val in combo`
of `run_parameter_sweep`, with the missing `import itertools` granted:
each combo is a 1-tuple holding one whole axis, and the loop unpacks that
axis (a list of `(sec,name,val)` triples) into three targets — so `sec`,
`name` and `val` would each be bound to a *triple*, and only when the
axis has exactly 3 values; any other axis length raises `ValueError`. -/
def sweepCombos (pv : List (String × List (String × List Val))) :
    Except PyErr (List (List ((String × String × Val) × (String × String × Val) × (String × String × Val)))) :=
  match (productNoUnpack (sweepAxes pv)).mapM (fun combo => combo.mapM unpack3) with
  | some l => .ok l
  | none => .error .valueError

/-! ## Object identity of namelist sections (`Experiment.derive`)

`derive` executes `new_exp.namelist = self.namelist.copy()`. f90nml's
namelist class subclasses `dict` and does not override `copy`, so this is
a *shallow* copy: a fresh top-level mapping holding the very same
section-dict objects. To make the sharing observable, section objects
live in a store and a namelist object maps section names to references
into it. -/

/-- The store of live section-dict objects; a reference is an index. -/
structure SecStore where
  secs : List NmlSec
deriving DecidableEq, Repr

/-- A namelist object: the top-level dict, mapping each section name to
the reference of its section object. -/
abbrev NmlObj := List (String × Nat)

def SecStore.get (st : SecStore) (r : Nat) : NmlSec := (st.secs.get? r).getD []

def SecStore.set (st : SecStore) (r : Nat) (s : NmlSec) : SecStore := ⟨st.secs.set r s⟩

/-- The namelist binding performed by `Experiment.derive`:
`new_exp.namelist = self.namelist.copy()` — `dict.copy`, a new top-level
mapping containing the same section references. -/
def deriveNamelist (base : NmlObj) : NmlObj := base

/-- The sweep's per-combination overwrite `exp.namelist[sec][name] = val`:
fetch the section object bound to `sec` and mutate it in place
(`KeyError`, i.e. `none`, if the section is absent). -/
def setParam (st : SecStore) (n : NmlObj) (sec key : String) (v : Val) :
    Option SecStore :=
  (dictGet? n sec).map (fun r => st.set r (dictSet (st.get r) key v))

/-- Reading `namelist[sec][key]` through the store. -/
def readParam (st : SecStore) (n : NmlObj) (sec key : String) : Option Val :=
  (dictGet? n sec).bind (fun r => dictGet? (st.get r) key)

/-! ## Concrete fixtures

A small concrete experiment used to instantiate the theorems: a namelist
with a calendar entry, a diag table with one output file, no extra input
files, `overwrite_data=False`. -/

def nmlC : Namelist := [("main_nml", [("calendar", Val.str "thirty_day")])]

def dtC : DiagTable := DiagTable.empty.add_file "daily" 1 "days" none

def expC : Experiment := mkExperiment ["work"] ["data"] "exp1" nmlC dtC [] false

/-- The empty filesystem. -/
def fs0 : FS := ⟨[], []⟩

/-- A child-process outcome that completes, leaving one restart state
file and one netCDF output file. -/
def procOk : ProcOutcome := .ok ["atmos.res.nc"] ["daily.nc"]

/-- Three successive light-archival runs of the concrete experiment:
months 1 (cold start), 2 and 3 (restart-chained). -/
def chainFS1 : RunOut := expC.run 1 none false false true procOk fs0
def chainFS2 : RunOut := expC.run 2 none true false true procOk chainFS1.fs
def chainFS3 : RunOut := expC.run 3 none true false true procOk chainFS2.fs

/-- The sweep input of the spec's §8 example:
`{'sec':{'p':[0,1]}, 'sec2':{'q':[10,20]}}`. -/
def sweepInput : List (String × List (String × List Val)) :=
  [("sec", [("p", [Val.int 0, Val.int 1])]), ("sec2", [("q", [Val.int 10, Val.int 20])])]

/-- A diag table whose single file also carries one field. -/
def dtWithField : DiagTable := (dtC.add_field "atmos" "temp" false none).getD dtC

/-- A filesystem in which month 1's output directory already exists. -/
def fsD : FS := ⟨[["data", "exp1", "run001"]], []⟩

/-- A filesystem holding month 1's restart archive of the concrete
experiment (and nothing else). -/
def fsR : FS := ⟨[], [["work", "exp1", "restarts", "res_1.cpio"]]⟩

/-! # Helper lemmas -/

@[simp] theorem dictGet?_nil (k : String) : dictGet? ([] : List (String × α)) k = none := rfl

theorem dictGet?_cons (p : String × α) (d : List (String × α)) (k : String) :
    dictGet? (p :: d) k = if p.1 = k then some p.2 else dictGet? d k := by
  by_cases h : p.1 = k <;> simp [dictGet?, List.find?, h]

theorem dictGet?_dictSet (d : List (String × α)) (k : String) (v : α) (k' : String) :
    dictGet? (dictSet d k v) k' = if k = k' then some v else dictGet? d k' := by
  induction d with
  | nil => by_cases h : k = k' <;> simp [dictSet, dictGet?_cons, h]
  | cons p d ih =>
    by_cases hpk : p.1 = k
    · by_cases hk : k = k'
      · simp [dictSet, hpk, dictGet?_cons, hk]
      · simp [dictSet, hpk, dictGet?_cons, hk]
    · have h1 : dictSet (p :: d) k v = p :: dictSet d k v := by simp [dictSet, hpk]
      rw [h1, dictGet?_cons, ih, dictGet?_cons]
      by_cases hk : k = k'
      · subst hk; simp [hpk]
      · simp [hk]

theorem keys_dictSet (d : List (String × α)) (k : String) (v : α) :
    (dictSet d k v).map Prod.fst =
      if dictMem d k then d.map Prod.fst else d.map Prod.fst ++ [k] := by
  induction d with
  | nil => simp [dictSet, dictMem]
  | cons p d ih =>
    by_cases hpk : p.1 = k
    · simp [dictSet, dictMem, hpk]
    · simp only [dictSet, if_neg hpk, List.map_cons, ih, dictMem, List.any_cons]
      by_cases hd : dictMem d k <;>
        simp [dictMem] at hd <;> simp [hpk, hd]

theorem dictGet?_isSome_iff_mem (d : List (String × α)) (k : String) :
    (dictGet? d k).isSome = dictMem d k := by
  induction d with
  | nil => rfl
  | cons p d ih =>
    by_cases hpk : p.1 = k
    · simp [dictGet?_cons, hpk, dictMem, List.any_cons]
    · simp [dictGet?_cons, hpk, dictMem, List.any_cons]
      simpa [dictMem] using ih

theorem dictMem_iff_mem_keys (d : List (String × α)) (k : String) :
    dictMem d k = true ↔ k ∈ d.map Prod.fst := by
  simp [dictMem, List.any_eq_true]

theorem dictGet?_eq_none_of_not_mem (d : List (String × α)) (k : String)
    (h : k ∉ d.map Prod.fst) : dictGet? d k = none := by
  induction d with
  | nil => rfl
  | cons p d ih =>
    simp only [List.map_cons, List.mem_cons] at h
    push_neg at h
    rw [dictGet?_cons, if_neg (Ne.symm h.1), ih h.2]

theorem dictGet?_dictUpdate (d e : List (String × α)) (k : String)
    (he : (e.map Prod.fst).Nodup) :
    dictGet? (dictUpdate d e) k = (dictGet? e k).or (dictGet? d k) := by
  induction e generalizing d with
  | nil => simp [dictUpdate]
  | cons p e ih =>
    simp only [List.map_cons, List.nodup_cons] at he
    have step : dictUpdate d (p :: e) = dictUpdate (dictSet d p.1 p.2) e := rfl
    rw [step, ih _ he.2, dictGet?_cons, dictGet?_dictSet]
    by_cases hk : p.1 = k
    · subst hk
      rw [dictGet?_eq_none_of_not_mem e p.1 he.1]
      simp
    · simp [hk]

/-! ### Filesystem lemmas -/

theorem isfile_iff (fs : FS) (p : Path) : fs.isfile p = true ↔ p ∈ fs.files := by
  simp [FS.isfile, List.contains, List.elem_iff]

theorem isdir_iff (fs : FS) (p : Path) : fs.isdir p = true ↔ p ∈ fs.dirs := by
  simp [FS.isdir, List.contains, List.elem_iff]

theorem isfile_addFile (fs : FS) (p g : Path) :
    (fs.addFile p).isfile g = true ↔ (fs.isfile g = true ∨ g = p) := by
  by_cases h : fs.files.contains p
  · have hp : p ∈ fs.files := by simpa [List.contains, List.elem_iff] using h
    simp only [FS.addFile, if_pos h]
    constructor
    · exact Or.inl
    · rintro (hg | rfl)
      · exact hg
      · exact (isfile_iff _ _).mpr hp
  · simp only [FS.addFile, if_neg h]
    simp [FS.isfile, List.contains, List.elem_iff, List.mem_append]

theorem files_mkdirp (fs : FS) (p : Path) : (fs.mkdirp p).files = fs.files := by
  simp only [FS.mkdirp]
  split <;> rfl

theorem isfile_mkdirp (fs : FS) (p g : Path) : (fs.mkdirp p).isfile g = fs.isfile g := by
  simp [FS.isfile, files_mkdirp]

theorem isdir_mkdirp (fs : FS) (p q : Path) :
    (fs.mkdirp p).isdir q = true ↔ (fs.isdir q = true ∨ q = p) := by
  by_cases h : fs.dirs.contains p
  · have hp : p ∈ fs.dirs := by simpa [List.contains, List.elem_iff] using h
    simp only [FS.mkdirp, if_pos h]
    constructor
    · exact Or.inl
    · rintro (hg | rfl)
      · exact hg
      · exact (isdir_iff _ _).mpr hp
  · simp only [FS.mkdirp, if_neg h]
    simp [FS.isdir, List.contains, List.elem_iff, List.mem_append]

theorem isfile_rmTree (fs : FS) (p g : Path) :
    (fs.rmTree p).isfile g = true ↔ (fs.isfile g = true ∧ underPath p g = false) := by
  simp [FS.rmTree, isfile_iff, List.mem_filter, FS.isfile, List.contains, List.elem_iff]

theorem isdir_rmTree (fs : FS) (p g : Path) :
    (fs.rmTree p).isdir g = true ↔ (fs.isdir g = true ∧ underPath p g = false) := by
  simp [FS.rmTree, FS.isdir, List.mem_filter, List.contains, List.elem_iff]

theorem underPath_refl (p : Path) : underPath p p = true := by
  simp [underPath]

theorem isdir_rmTree_self (fs : FS) (p : Path) : (fs.rmTree p).isdir p = false := by
  cases h : (fs.rmTree p).isdir p
  · rfl
  · have h2 := (isdir_rmTree fs p p).mp h
    rw [underPath_refl] at h2
    exact absurd h2.2 (by simp)

theorem scratchClean_clear_rundir (e : Experiment) (fs : FS) :
    scratchClean e (e.clear_rundir fs) = true := by
  simp only [scratchClean, Experiment.clear_rundir, files_mkdirp, FS.rmTree,
    List.all_eq_true]
  intro f hf
  simpa using (List.mem_filter.mp hf).2

theorem copyInputs_spec (ins : List Path) (indir : Path) (fs : FS)
    (h : ∀ f ∈ ins, fs.isfile f = true) :
    ∃ fs', copyInputs ins indir fs = (fs', true) ∧
      (∀ g, fs.isfile g = true → fs'.isfile g = true) ∧
      (∀ g, fs'.isfile g = true →
        fs.isfile g = true ∨ ∃ f ∈ ins, g = pjoin indir (basename f)) := by
  induction ins generalizing fs with
  | nil => exact ⟨fs, rfl, fun _ hg => hg, fun _ hg => Or.inl hg⟩
  | cons f rest ih =>
    have hf : fs.isfile f = true := h f (by simp)
    have hrest : ∀ x ∈ rest, (fs.addFile (pjoin indir (basename f))).isfile x = true := by
      intro x hx
      exact (isfile_addFile _ _ _).mpr (Or.inl (h x (by simp [hx])))
    obtain ⟨fs', heq, hmono, hsub⟩ := ih (fs.addFile (pjoin indir (basename f))) hrest
    refine ⟨fs', by simp [copyInputs, hf, heq], ?_, ?_⟩
    · intro g hg
      exact hmono g ((isfile_addFile _ _ _).mpr (Or.inl hg))
    · intro g hg
      rcases hsub g hg with hg' | ⟨x, hx, hgx⟩
      · rcases (isfile_addFile _ _ _).mp hg' with h1 | rfl
        · exact Or.inl h1
        · exact Or.inr ⟨f, by simp, rfl⟩
      · exact Or.inr ⟨x, by simp [hx], hgx⟩

/-! ### Path disjointness -/

theorem ne_of_head_ne (a : Path) (x y : String) (s t : Path) (hxy : x ≠ y) :
    a ++ x :: s ≠ a ++ y :: t := by
  intro h
  have h2 := List.append_cancel_left h
  exact hxy (by injection h2)

theorem not_underPath_of_head_ne (a : Path) (x y : String) (s t : Path) (hxy : x ≠ y) :
    underPath (a ++ x :: s) (a ++ y :: t) = false := by
  cases h : underPath (a ++ x :: s) (a ++ y :: t)
  · rfl
  · exfalso
    have h2 : (a ++ x :: s) <+: (a ++ y :: t) := by
      simpa [underPath] using h
    obtain ⟨r, hr⟩ := h2
    rw [List.append_assoc] at hr
    have h3 := List.append_cancel_left hr
    rw [List.cons_append] at h3
    exact hxy (by injection h3)

theorem update_namelist_lookup (patch : Namelist) :
    ∀ (nml : Namelist) (sec : String), (patch.map Prod.fst).Nodup →
    dictGet? (update_namelist nml patch) sec =
      (match dictGet? patch sec with
       | some kv => some (dictUpdate ((dictGet? nml sec).getD []) kv)
       | none => dictGet? nml sec) := by
  induction patch with
  | nil => intro nml sec _; rfl
  | cons p patch ih =>
    intro nml sec hnd
    simp only [List.map_cons, List.nodup_cons] at hnd
    have step : update_namelist nml (p :: patch) =
        update_namelist (dictSet nml p.1 (dictUpdate ((dictGet? nml p.1).getD []) p.2)) patch := rfl
    rw [step, ih _ sec hnd.2, dictGet?_cons]
    by_cases hsec : p.1 = sec
    · subst hsec
      rw [dictGet?_eq_none_of_not_mem patch p.1 hnd.1]
      simp [dictGet?_dictSet]
    · simp only [if_neg hsec, dictGet?_dictSet]

/-! # Claims -/

/-- **C6** counterexample. The spec's §8 example: merging `{A:{x:1,y:2}}`
with the later source `{A:{x:3}}` through `rebuild_namelist` is claimed to
preserve the non-colliding key `y`; in fact `dict.update` replaces the
whole section, so `y` is gone. -/
theorem claim_C6_counterexample :
    dictGet? ((dictGet? (rebuild_namelist
        [("A", [("x", Val.int 1), ("y", Val.int 2)])]
        [[("A", [("x", Val.int 3)])]]) "A").getD []) "y" = none ∧
    rebuild_namelist [("A", [("x", Val.int 1), ("y", Val.int 2)])]
        [[("A", [("x", Val.int 3)])]] = [("A", [("x", Val.int 3)])] := by
  exact ⟨rfl, rfl⟩

/-- **C6** (amended): in `rebuild_namelist` a later source's *section*
replaces the earlier section wholesale (colliding sections take the later
source's section dict; earlier keys of that section are dropped), while
`update_namelist` is per-key last-write-wins inside a section: a section
absent from the patch is untouched, a patched section is the old section
bulk-updated key-by-key, and inside a section a colliding key takes the
patch value while non-colliding keys are preserved. -/
theorem claim_C6_amended (a b nml patch : Namelist) (cur kvs : NmlSec)
    (sec key : String)
    (hb : (b.map Prod.fst).Nodup) (hpatch : (patch.map Prod.fst).Nodup)
    (hkvs : (kvs.map Prod.fst).Nodup) :
    dictGet? (rebuild_namelist a [b]) sec = (dictGet? b sec).or (dictGet? a sec) ∧
    dictGet? (update_namelist nml patch) sec =
      (match dictGet? patch sec with
       | some kv => some (dictUpdate ((dictGet? nml sec).getD []) kv)
       | none => dictGet? nml sec) ∧
    dictGet? (dictUpdate cur kvs) key = (dictGet? kvs key).or (dictGet? cur key) := by
  refine ⟨?_, ?_, ?_⟩
  · exact dictGet?_dictUpdate a b sec hb
  · exact update_namelist_lookup patch nml sec hpatch
  · exact dictGet?_dictUpdate cur kvs key hkvs

/-- **C6** witness: the amended merge semantics evaluated on the §8
example and a one-section patch. -/
theorem claim_C6_witness :
    dictGet? (rebuild_namelist [("A", [("x", Val.int 1), ("y", Val.int 2)])]
        [[("A", [("x", Val.int 3)])]]) "A" =
      (dictGet? [("A", [("x", Val.int 3)])] "A").or
        (dictGet? [("A", [("x", Val.int 1), ("y", Val.int 2)])] "A") ∧
    dictGet? (update_namelist [("A", [("x", Val.int 1), ("y", Val.int 2)])]
        [("A", [("x", Val.int 3)])]) "A" =
      some (dictUpdate [("x", Val.int 1), ("y", Val.int 2)] [("x", Val.int 3)]) ∧
    dictGet? (dictUpdate [("x", Val.int 1), ("y", Val.int 2)] [("x", Val.int 3)]) "y" =
      (dictGet? [("x", Val.int 3)] "y").or
        (dictGet? [("x", Val.int 1), ("y", Val.int 2)] "y") := by
  have h := claim_C6_amended [("A", [("x", Val.int 1), ("y", Val.int 2)])]
    [("A", [("x", Val.int 3)])] [("A", [("x", Val.int 1), ("y", Val.int 2)])]
    [("A", [("x", Val.int 3)])] [("x", Val.int 1), ("y", Val.int 2)]
    [("x", Val.int 3)] "A" "y" (by decide) (by decide) (by decide)
  exact ⟨h.1, h.2.1, h.2.2⟩

/-- **C5** counterexample. `derive` copies the namelist with `dict.copy`
(shallow); writing `exp.namelist['sec']['p'] = 1` through the derived
experiment's namelist object mutates the very section object the base
experiment still holds, so the base — whose value of `p` was `0` — now
reads `1`, as does every other derived experiment. -/
theorem claim_C5_counterexample :
    readParam ⟨[[("p", Val.int 0)]]⟩ [("sec", 0)] "sec" "p" = some (Val.int 0) ∧
    setParam ⟨[[("p", Val.int 0)]]⟩ (deriveNamelist [("sec", 0)]) "sec" "p" (Val.int 1) =
      some ⟨[[("p", Val.int 1)]]⟩ ∧
    readParam ⟨[[("p", Val.int 1)]]⟩ [("sec", 0)] "sec" "p" = some (Val.int 1) ∧
    readParam ⟨[[("p", Val.int 1)]]⟩ (deriveNamelist [("sec", 0)]) "sec" "p" =
      some (Val.int 1) := by
  exact ⟨rfl, rfl, rfl, rfl⟩

/-- **C5** (amended): applying a combination's namelist overwrite to a
derived experiment mutates the section object shared through the shallow
namelist copy, so the base experiment's namelist — and the namelist of
every other experiment holding a reference to the same section object —
observes the new value. -/
theorem claim_C5_amended (st : SecStore) (base : NmlObj) (sec key : String)
    (v : Val) (r : Nat) (hr : dictGet? base sec = some r)
    (hlen : r < st.secs.length) :
    ∃ st', setParam st (deriveNamelist base) sec key v = some st' ∧
      readParam st' base sec key = some v ∧
      ∀ other : NmlObj, dictGet? other sec = some r →
        readParam st' other sec key = some v := by
  refine ⟨st.set r (dictSet (st.get r) key v), ?_, ?_, ?_⟩
  · simp [setParam, deriveNamelist, hr]
  · simp [readParam, hr, SecStore.get, SecStore.set,
      List.getElem?_set_self hlen, dictGet?_dictSet]
  · intro other hother
    simp [readParam, hother, SecStore.get, SecStore.set,
      List.getElem?_set_self hlen, dictGet?_dictSet]

/-- **C5** witness: the shared-section mutation at a concrete store. -/
theorem claim_C5_witness :
    ∃ st', setParam ⟨[[("p", Val.int 0)]]⟩ (deriveNamelist [("sec", 0)])
        "sec" "p" (Val.int 1) = some st' ∧
      readParam st' [("sec", 0)] "sec" "p" = some (Val.int 1) ∧
      ∀ other : NmlObj, dictGet? other "sec" = some 0 →
        readParam st' other "sec" "p" = some (Val.int 1) :=
  claim_C5_amended ⟨[[("p", Val.int 0)]]⟩ [("sec", 0)] "sec" "p" (Val.int 1) 0
    (by decide) (by decide)

/-- **C4**: evaluating the sweep enumeration (with the missing
`import itertools` granted) at the spec's input
`{'sec':{'p':[0,1]}, 'sec2':{'q':[10,20]}}`: `itertools.product(params)`
yields one 1-tuple per axis — 2 "combinations", not the 4 of the claimed
cartesian product — and unpacking a 2-element axis into `(sec, name, val)`
raises `ValueError`, so no experiment is ever derived. -/
theorem claim_C4_product_bug :
    sweepCombos sweepInput = .error .valueError ∧
    (productNoUnpack (sweepAxes sweepInput)).length = 2 := by
  exact ⟨rfl, rfl⟩

/-- **C8**: materializing the diag table with zero files raises
`ValueError` and renders nothing; with at least one file (and a namelist
whose `main_nml.calendar` entry resolves to a calendar flag) it renders
the flag together with all file records. -/
theorem claim_C8_materialize_requires_file (dt : DiagTable) (nml : Namelist)
    (c : Bool) :
    (dt.files = [] → write_diag_table dt nml = .error .valueError) ∧
    (dt.files ≠ [] → calendarFlag nml = .ok c →
      write_diag_table dt nml = .ok (c, dt.files.map Prod.snd)) := by
  constructor
  · intro h; simp [write_diag_table, h]
  · intro h hc
    have hlen : dt.files.length ≠ 0 := fun hl => h (List.length_eq_zero.mp hl)
    simp [write_diag_table, hlen, hc, Except.map]

/-- **C8** witness: the empty diag table errors; the one-file fixture
renders. -/
theorem claim_C8_witness :
    write_diag_table DiagTable.empty nmlC = .error .valueError ∧
    write_diag_table dtC nmlC = .ok (true, dtC.files.map Prod.snd) :=
  ⟨(claim_C8_materialize_requires_file DiagTable.empty nmlC true).1 rfl,
   (claim_C8_materialize_requires_file dtC nmlC true).2 (by decide) (by rfl)⟩

/-- **C10**: re-registering an existing file name in `add_file` assigns a
brand-new record: frequency, units and time units take the new values and
the field list is reset to `[]`, discarding previously attached fields. -/
theorem claim_C10_add_file_replaces (d : DiagTable) (name : String) (r : FileRec)
    (_hr : dictGet? d.files name = some r) (freq : Int) (units : String)
    (tu : Option String) :
    dictGet? (d.add_file name freq units tu).files name =
      some ⟨name, freq, units, tu.getD units, []⟩ := by
  simp [DiagTable.add_file, dictGet?_dictSet]

/-- **C10** witness: re-adding `"daily"` on a table whose `"daily"` file
carries a field resets the record, field list included. -/
theorem claim_C10_witness :
    dictGet? (dtWithField.add_file "daily" 2 "hours" none).files "daily" =
      some ⟨"daily", 2, "hours", "hours", []⟩ :=
  claim_C10_add_file_replaces dtWithField "daily"
    ⟨"daily", 1, "days", "days", [⟨"atmos", "temp", false⟩]⟩ (by rfl) 2 "hours" none

/-- **C3** counterexample. Running months 1, 2, 3 of the concrete
experiment under the light policy succeeds three times, yet month 2's
restart artifacts — both the archive under `restarts/` and the copy in
`run002/` — are gone at the end, contradicting the claim that the
artifacts of months 2 *and* 3 remain: the prune in run 3 deleted them. -/
theorem claim_C3_counterexample :
    chainFS1.result = .returned true ∧
    chainFS2.result = .returned true ∧
    chainFS3.result = .returned true ∧
    chainFS3.fs.isfile (expC.get_restart_file 2) = false ∧
    chainFS3.fs.isfile (pjoin (expC.outdir 2) "res_2.cpio") = false := by
  exact ⟨rfl, rfl, rfl, rfl, rfl⟩

/-- **C3** (amended): after successfully completing light-policy runs for
months 1, 2 and 3, exactly the restart artifacts of the *most recent*
month (month 3) remain on disk — the archive `restarts/res_3.cpio` and
the copy `run003/res_3.cpio`; each run with `month > 1` prunes month−1's
archive and copied restart as soon as month's restart is archived. -/
theorem claim_C3_amended :
    chainFS1.result = .returned true ∧
    chainFS2.result = .returned true ∧
    chainFS3.result = .returned true ∧
    chainFS3.fs.isfile (expC.get_restart_file 3) = true ∧
    chainFS3.fs.isfile (pjoin (expC.outdir 3) "res_3.cpio") = true ∧
    chainFS3.fs.isfile (expC.get_restart_file 2) = false ∧
    chainFS3.fs.isfile (expC.get_restart_file 1) = false ∧
    chainFS3.fs.isfile (pjoin (expC.outdir 2) "res_2.cpio") = false ∧
    chainFS3.fs.isfile (pjoin (expC.outdir 1) "res_1.cpio") = false := by
  exact ⟨rfl, rfl, rfl, rfl, rfl, rfl, rfl, rfl, rfl⟩

/-- **C2** counterexample. A run whose child process fails (the
`except Exception` branch of `Experiment.run`) kills the child and
re-raises, but does *not* call `clear_rundir`: here the propagated error
leaves `input.nml` and the other rendered files sitting in the scratch
run directory. -/
theorem claim_C2_counterexample :
    (expC.run 1 none false false false .failed fs0).result = .raised .procError ∧
    scratchClean expC (expC.run 1 none false false false .failed fs0).fs = false := by
  exact ⟨rfl, rfl⟩

/-! ### Machinery for C7 (`add_field` over the key snapshot) -/

theorem mapSet_id (k : String) (w : String × α)
    (t : List (String × α)) (h : ∀ p ∈ t, p.1 ≠ k) :
    t.map (fun p => if p.1 = k then w else p) = t := by
  induction t with
  | nil => rfl
  | cons q t ih =>
    simp only [List.map_cons]
    rw [if_neg (h q (by simp)), ih (fun p hp => h p (by simp [hp]))]

theorem dictSet_eq_map (t : List (String × α)) (k : String) (v : α)
    (hnd : (t.map Prod.fst).Nodup) (hmem : dictMem t k = true) :
    dictSet t k v = t.map (fun p => if p.1 = k then (k, v) else p) := by
  induction t with
  | nil => simp [dictMem] at hmem
  | cons q t ih =>
    simp only [List.map_cons, List.nodup_cons] at hnd
    by_cases hq : q.1 = k
    · subst hq
      have h1 : dictSet (q :: t) q.1 v = (q.1, v) :: t := by
        simp [dictSet]
      have h2 : (q :: t).map (fun p => if p.1 = q.1 then (q.1, v) else p)
          = (q.1, v) :: t.map (fun p => if p.1 = q.1 then (q.1, v) else p) := by
        simp
      rw [h1, h2, mapSet_id q.1 _ t
        (fun p hp hc => hnd.1 (by rw [← hc]; exact List.mem_map_of_mem Prod.fst hp))]
    · have hmem' : dictMem t k = true := by
        have := hmem
        simp only [dictMem, List.any_cons] at this
        simpa [hq, dictMem] using this
      simp only [dictSet, if_neg hq, List.map_cons, if_neg hq]
      rw [ih hnd.2 hmem']

theorem dictGet?_eq_of_mem_nodup (t : List (String × α))
    (hnd : (t.map Prod.fst).Nodup) (p : String × α) (hp : p ∈ t) :
    dictGet? t p.1 = some p.2 := by
  induction t with
  | nil => cases hp
  | cons q t ih =>
    simp only [List.map_cons, List.nodup_cons] at hnd
    rcases List.mem_cons.mp hp with rfl | hp'
    · rw [dictGet?_cons, if_pos rfl]
    · by_cases hq : q.1 = p.1
      · exact absurd (hq ▸ List.mem_map_of_mem Prod.fst hp') hnd.1
      · rw [dictGet?_cons, if_neg hq, ih hnd.2 hp']

theorem keys_dictSet_of_mem (t : List (String × α)) (k : String) (v : α)
    (hmem : dictMem t k = true) :
    (dictSet t k v).map Prod.fst = t.map Prod.fst := by
  rw [keys_dictSet, if_pos hmem]

theorem add_field_foldlM (module fieldName : String) (tavg : Bool) :
    ∀ (ks : List String) (t : List (String × FileRec)),
      ks.Nodup → (t.map Prod.fst).Nodup → (∀ k ∈ ks, dictMem t k = true) →
      (List.foldlM (fun (tb : DiagTable) fname =>
          match dictGet? tb.files fname with
          | some r => some (⟨dictSet tb.files fname
              { r with fields := r.fields ++ [⟨module, fieldName, tavg⟩] }⟩ : DiagTable)
          | none => none) (⟨t⟩ : DiagTable) ks) =
        some ⟨t.map (fun p => if p.1 ∈ ks then
          (p.1, { p.2 with fields := p.2.fields ++ [⟨module, fieldName, tavg⟩] }) else p)⟩ := by
  intro ks
  induction ks with
  | nil =>
    intro t _ _ _
    simp only [List.foldlM_nil, List.not_mem_nil, if_false]
    rw [List.map_id']
    rfl
  | cons k ks ih =>
    intro t hksnd htnd hmem
    simp only [List.nodup_cons] at hksnd
    have hk : dictMem t k = true := hmem k (by simp)
    obtain ⟨r, hr⟩ : ∃ r, dictGet? t k = some r := by
      have h1 := dictGet?_isSome_iff_mem t k
      rw [hk] at h1
      exact Option.isSome_iff_exists.mp h1
    rw [List.foldlM_cons]
    simp only [hr]
    have hkeys : (dictSet t k { r with fields := r.fields ++ [⟨module, fieldName, tavg⟩] }).map
        Prod.fst = t.map Prod.fst := keys_dictSet_of_mem t k _ hk
    have hnd1 : ((dictSet t k { r with fields := r.fields ++ [⟨module, fieldName, tavg⟩] }).map
        Prod.fst).Nodup := by rw [hkeys]; exact htnd
    have hmem1 : ∀ x ∈ ks, dictMem (dictSet t k
        { r with fields := r.fields ++ [⟨module, fieldName, tavg⟩] }) x = true := by
      intro x hx
      have := hmem x (by simp [hx])
      rw [dictMem_iff_mem_keys] at this ⊢
      rwa [hkeys]
    have hstep := ih (dictSet t k { r with fields := r.fields ++ [⟨module, fieldName, tavg⟩] })
      hksnd.2 hnd1 hmem1
    simp only [Option.bind_eq_bind, Option.some_bind] at *
    rw [hstep]
    congr 1
    congr 1
    rw [dictSet_eq_map t k _ htnd hk, List.map_map]
    apply List.map_congr_left
    intro p hp
    by_cases hpk : p.1 = k
    · have hp2 : p.2 = r := by
        have h1 := dictGet?_eq_of_mem_nodup t htnd p hp
        rw [hpk, hr] at h1
        exact (Option.some.injEq _ _ ▸ h1).symm
      simp only [Function.comp_apply, if_pos hpk]
      rw [if_neg (by simpa [hpk] using hksnd.1), if_pos (by simp [hpk])]
      rw [hpk, hp2]
    · simp only [Function.comp_apply, if_neg hpk]
      by_cases hpks : p.1 ∈ ks
      · rw [if_pos hpks, if_pos (by simp [hpks])]
      · rw [if_neg hpks, if_neg (by simp [hpk, hpks])]

/-- **C7**: `add_field` with `files=None` attaches the field to exactly
the files present at call time — every existing record gets the new field
appended at the end of its field list (preserving insertion order and
keeping duplicates), and nothing else changes; and a file added
afterwards by `add_file` starts with an empty field list, so it does not
contain the earlier field. -/
theorem claim_C7_add_field_snapshot (d : DiagTable)
    (hnd : (d.files.map Prod.fst).Nodup) (module fieldName : String) (tavg : Bool) :
    d.add_field module fieldName tavg none =
      some ⟨d.files.map (fun p =>
        (p.1, { p.2 with fields := p.2.fields ++ [⟨module, fieldName, tavg⟩] }))⟩ ∧
    (∀ (f2 : String) (freq : Int) (units : String) (tu : Option String)
        (d₂ : DiagTable), d.add_field module fieldName tavg none = some d₂ →
      dictGet? (d₂.add_file f2 freq units tu).files f2 =
        some ⟨f2, freq, units, tu.getD units, []⟩) := by
  constructor
  · have h := add_field_foldlM module fieldName tavg (d.files.map Prod.fst) d.files
      hnd hnd (fun k hk => (dictMem_iff_mem_keys d.files k).mpr hk)
    have hgoal : d.add_field module fieldName tavg none =
        List.foldlM (fun (tb : DiagTable) fname =>
          match dictGet? tb.files fname with
          | some r => some (⟨dictSet tb.files fname
              { r with fields := r.fields ++ [⟨module, fieldName, tavg⟩] }⟩ : DiagTable)
          | none => none) (⟨d.files⟩ : DiagTable) (d.files.map Prod.fst) := rfl
    rw [hgoal, h]
    congr 1
    congr 1
    apply List.map_congr_left
    intro p hp
    rw [if_pos (List.mem_map_of_mem Prod.fst hp)]
  · intro f2 freq units tu d₂ _
    simp [DiagTable.add_file, dictGet?_dictSet]

/-- **C7** witness: the snapshot semantics on the one-file fixture, and a
file registered after the field was added carries no field. -/
theorem claim_C7_witness :
    dtC.add_field "atmos" "temp" false none =
      some ⟨dtC.files.map (fun p =>
        (p.1, { p.2 with fields := p.2.fields ++ [⟨"atmos", "temp", false⟩] }))⟩ ∧
    dictGet? (dtWithField.add_file "monthly" 30 "days" none).files "monthly" =
      some ⟨"monthly", 30, "days", "days", []⟩ :=
  ⟨(claim_C7_add_field_snapshot dtC (by decide) "atmos" "temp" false).1,
   (claim_C7_add_field_snapshot dtC (by decide) "atmos" "temp" false).2
     "monthly" 30 "days" none dtWithField (by rfl)⟩

/-- **C9**: when the month's output directory already exists, `run`
without an overwrite policy returns the non-exceptional skip outcome
`False` immediately — the filesystem is returned exactly as it was and no
process is launched — while with an overwrite policy in effect the run
behaves exactly as if the existing output directory had been destroyed
first (`sh.rm('-r', outdir)` before proceeding). -/
theorem claim_C9_preexisting_output (e : Experiment) (month : Int)
    (restart_file : Option Path) (use_restart ow light : Bool)
    (proc : ProcOutcome) (fs : FS)
    (hdir : fs.isdir (e.outdir month) = true) :
    ((e.overwrite_data || ow) = false →
      e.run month restart_file use_restart ow light proc fs =
        ⟨.returned false, fs, none⟩) ∧
    ((e.overwrite_data || ow) = true →
      e.run month restart_file use_restart ow light proc fs =
        e.run month restart_file use_restart ow light proc
          (fs.rmTree (e.outdir month))) := by
  constructor
  · intro h
    simp [Experiment.run, hdir, h]
  · intro h
    have h2 := isdir_rmTree_self fs (e.outdir month)
    simp [Experiment.run, hdir, h, h2]

/-- **C9** witness: the skip outcome and the overwrite equivalence on the
concrete experiment with `run001` already present. -/
theorem claim_C9_witness :
    expC.run 1 none true false false procOk fsD = ⟨.returned false, fsD, none⟩ ∧
    expC.run 1 none true true false procOk fsD =
      expC.run 1 none true true false procOk (fsD.rmTree (expC.outdir 1)) :=
  ⟨(claim_C9_preexisting_output expC 1 none true false false procOk fsD rfl).1 rfl,
   (claim_C9_preexisting_output expC 1 none true true false procOk fsD rfl).2 rfl⟩

/-! ### Launch-stage and preparation lemmas -/

theorem underPath_append (a t : Path) : underPath a (a ++ t) = true := by
  simp [underPath]

theorem scratchClean_false_of_file (e : Experiment) (fs : FS) (g : Path)
    (hg : fs.isfile g = true) (hu : underPath e.rundir g = true) :
    scratchClean e fs = false := by
  cases h : scratchClean e fs
  · rfl
  · exfalso
    have hall : ∀ f ∈ fs.files, (!underPath e.rundir f) = true := by
      simpa [scratchClean, List.all_eq_true] using h
    have h2 := hall g ((isfile_iff fs g).mp hg)
    rw [hu] at h2
    simp at h2

theorem isfile_prepD (e : Experiment) (fs : FS) (g : Path) :
    ((e.prepFS fs).addFile (pjoin e.rundir "diag_table")).isfile g = true ↔
      (fs.isfile g = true ∨ g = pjoin e.rundir "input.nml" ∨
       g = pjoin e.rundir "field_table" ∨ g = pjoin e.rundir "diag_table") := by
  simp only [Experiment.prepFS]
  rw [isfile_addFile, isfile_addFile, isfile_addFile,
    isfile_mkdirp, isfile_mkdirp, isfile_mkdirp]
  tauto

theorem isfile_prepD_mono (e : Experiment) (fs : FS) (g : Path)
    (h : fs.isfile g = true) :
    ((e.prepFS fs).addFile (pjoin e.rundir "diag_table")).isfile g = true :=
  (isfile_prepD e fs g).mpr (Or.inl h)

theorem launch_launchStage (e : Experiment) (month : Int) (rf : Option Path)
    (light : Bool) (proc : ProcOutcome) (fs : FS) :
    (e.launchStage month rf light proc fs).launch = some ⟨month, rf⟩ := by
  cases proc with
  | interrupt => rfl
  | failed => rfl
  | ok sf nf =>
    simp only [Experiment.launchStage]
    split
    · split
      · split <;> rfl
      · rfl
    · rfl

theorem launchStage_interrupt (e : Experiment) (month : Int) (rf : Option Path)
    (light : Bool) (fs : FS) :
    e.launchStage month rf light .interrupt fs =
      ⟨.returned false, e.clear_rundir (fs.addFile (pjoin e.rundir "runmonth.sh")),
        some ⟨month, rf⟩⟩ := rfl

theorem launchStage_failed (e : Experiment) (month : Int) (rf : Option Path)
    (light : Bool) (fs : FS) :
    e.launchStage month rf light .failed fs =
      ⟨.raised .procError, fs.addFile (pjoin e.rundir "runmonth.sh"),
        some ⟨month, rf⟩⟩ := rfl

theorem launchStage_ok_outcome (e : Experiment) (month : Int) (rf : Option Path)
    (light : Bool) (sf nf : List String) (fs : FS) :
    ((e.launchStage month rf light (.ok sf nf) fs).result = .returned true ∨
     (e.launchStage month rf light (.ok sf nf) fs).result = .raised .shError) ∧
    ((e.launchStage month rf light (.ok sf nf) fs).result = .returned true →
      scratchClean e (e.launchStage month rf light (.ok sf nf) fs).fs = true) := by
  simp only [Experiment.launchStage]
  split
  · split
    · split
      · exact ⟨Or.inr rfl, fun h => absurd h (by simp)⟩
      · exact ⟨Or.inl rfl, fun _ => scratchClean_clear_rundir e _⟩
    · exact ⟨Or.inl rfl, fun _ => scratchClean_clear_rundir e _⟩
  · exact ⟨Or.inl rfl, fun _ => scratchClean_clear_rundir e _⟩

/-! ### Path disjointness of the restart archive and the run directory -/

theorem get_restart_ne_rundir_file (gw gd : Path) (name : String) (nml : Namelist)
    (dt : DiagTable) (ins : List Path) (owflag : Bool) (m : Int) (c : String) :
    (mkExperiment gw gd name nml dt ins owflag).get_restart_file m ≠
      pjoin (mkExperiment gw gd name nml dt ins owflag).rundir c := by
  show ((gw ++ [name]) ++ ["restarts"]) ++ ["res_" ++ toString m ++ ".cpio"] ≠
    ((gw ++ [name]) ++ ["run"]) ++ [c]
  intro h
  simp only [List.append_assoc, List.singleton_append, List.cons_append,
    List.nil_append] at h
  have h2 := List.append_cancel_left h
  injection h2 with _ h3
  injection h3 with h4 _
  exact absurd h4 (by decide)

theorem get_restart_ne_indir_file (gw gd : Path) (name : String) (nml : Namelist)
    (dt : DiagTable) (ins : List Path) (owflag : Bool) (m : Int) (b : String) :
    (mkExperiment gw gd name nml dt ins owflag).get_restart_file m ≠
      pjoin (pjoin (mkExperiment gw gd name nml dt ins owflag).rundir "INPUT") b := by
  show ((gw ++ [name]) ++ ["restarts"]) ++ ["res_" ++ toString m ++ ".cpio"] ≠
    (((gw ++ [name]) ++ ["run"]) ++ ["INPUT"]) ++ [b]
  intro h
  simp only [List.append_assoc, List.singleton_append, List.cons_append,
    List.nil_append] at h
  have h2 := List.append_cancel_left h
  injection h2 with _ h3
  injection h3 with h4 _
  exact absurd h4 (by decide)

/-- The preparation stages of a `run` that passes the pre-existing-output
check: there is a filesystem `fs2` (the scratch area populated with the
rendered configuration and the copied inputs) on which the presence of
the derived restart artifact agrees with the caller's filesystem, and the
whole invocation reduces to the restart check followed by the launch
stage on `fs2`. -/
theorem run_prep_reduction (gw gd : Path) (name : String) (nml : Namelist)
    (dt : DiagTable) (ins : List Path) (owflag : Bool) (month : Int)
    (ow light : Bool) (fs : FS) (dv : Bool × List FileRec)
    (hout : fs.isdir ((mkExperiment gw gd name nml dt ins owflag).outdir month) = false)
    (hdiag : write_diag_table dt nml = .ok dv)
    (hins : ∀ f ∈ ins, fs.isfile f = true) :
    ∃ fs2 : FS,
      fs2.isfile ((mkExperiment gw gd name nml dt ins owflag).get_restart_file (month - 1)) =
        fs.isfile ((mkExperiment gw gd name nml dt ins owflag).get_restart_file (month - 1)) ∧
      fs2.isfile (pjoin (mkExperiment gw gd name nml dt ins owflag).rundir "input.nml") = true ∧
      ∀ (ur : Bool) (proc : ProcOutcome),
        (mkExperiment gw gd name nml dt ins owflag).run month none ur ow light proc fs =
          (if ur then
            (if fs2.isfile ((mkExperiment gw gd name nml dt ins owflag).get_restart_file (month - 1)) then
              (mkExperiment gw gd name nml dt ins owflag).launchStage month
                (some ((mkExperiment gw gd name nml dt ins owflag).get_restart_file (month - 1)))
                light proc fs2
             else ⟨.systemExit 2, fs2, none⟩)
           else (mkExperiment gw gd name nml dt ins owflag).launchStage month none light proc fs2) := by
  obtain ⟨fs2, hcopy, hmono, hsub⟩ := copyInputs_spec ins
    (pjoin (mkExperiment gw gd name nml dt ins owflag).rundir "INPUT")
    (((mkExperiment gw gd name nml dt ins owflag).prepFS fs).addFile
      (pjoin (mkExperiment gw gd name nml dt ins owflag).rundir "diag_table"))
    (fun f hf => isfile_prepD_mono _ _ _ (hins f hf))
  refine ⟨fs2, ?_, ?_, ?_⟩
  · cases hfs : fs.isfile ((mkExperiment gw gd name nml dt ins owflag).get_restart_file (month - 1)) with
    | false =>
      cases hv : fs2.isfile ((mkExperiment gw gd name nml dt ins owflag).get_restart_file (month - 1)) with
      | false => rfl
      | true =>
        exfalso
        rcases hsub _ hv with hc | ⟨f, _, hgf⟩
        · rcases (isfile_prepD _ _ _).mp hc with h1 | h1 | h1 | h1
          · rw [hfs] at h1; exact Bool.false_ne_true h1
          · exact get_restart_ne_rundir_file gw gd name nml dt ins owflag (month - 1) "input.nml" h1
          · exact get_restart_ne_rundir_file gw gd name nml dt ins owflag (month - 1) "field_table" h1
          · exact get_restart_ne_rundir_file gw gd name nml dt ins owflag (month - 1) "diag_table" h1
        · exact get_restart_ne_indir_file gw gd name nml dt ins owflag (month - 1) (basename f) hgf
    | true => exact hmono _ ((isfile_prepD _ _ _).mpr (Or.inl hfs))
  · exact hmono _ ((isfile_prepD _ _ _).mpr (Or.inr (Or.inl rfl)))
  · intro ur proc
    have hrun : (mkExperiment gw gd name nml dt ins owflag).run month none ur ow light proc fs =
        (mkExperiment gw gd name nml dt ins owflag).runBody month none ur light proc fs := by
      simp [Experiment.run, hout]
    have hdt : (mkExperiment gw gd name nml dt ins owflag).diag_table = dt := rfl
    have hnm : (mkExperiment gw gd name nml dt ins owflag).namelist = nml := rfl
    have hinf : (mkExperiment gw gd name nml dt ins owflag).inputfiles = ins := rfl
    rw [hrun]
    simp only [Experiment.runBody, hdt, hnm, hinf, hdiag, hcopy, Option.getD_none]

/-- **C1**: with restart use requested and no explicit restart path, the
restart artifact is the deterministic `res_<month-1>.cpio` under the
restarts root (`get_restart_file (month-1)`); when that file does not
exist the invocation terminates with `exit(2)` — fatally, with the child
process never launched — and when it does exist the run proceeds, handing
exactly that artifact to the launched process; with restart use not
requested the run launches cold, with no restart dependency. -/
theorem claim_C1_restart_dependency (gw gd : Path) (name : String)
    (nml : Namelist) (dt : DiagTable) (ins : List Path) (owflag : Bool)
    (month : Int) (ow light : Bool) (proc : ProcOutcome) (fs : FS)
    (dv : Bool × List FileRec) (e : Experiment)
    (he : e = mkExperiment gw gd name nml dt ins owflag)
    (hout : fs.isdir (e.outdir month) = false)
    (hdiag : write_diag_table dt nml = .ok dv)
    (hins : ∀ f ∈ ins, fs.isfile f = true) :
    (fs.isfile (e.get_restart_file (month - 1)) = false →
      (e.run month none true ow light proc fs).result = .systemExit 2 ∧
      (e.run month none true ow light proc fs).launch = none) ∧
    (fs.isfile (e.get_restart_file (month - 1)) = true →
      (e.run month none true ow light proc fs).launch =
        some ⟨month, some (e.get_restart_file (month - 1))⟩) ∧
    (e.run month none false ow light proc fs).launch = some ⟨month, none⟩ := by
  subst he
  obtain ⟨fs2, hrf, _, hred⟩ := run_prep_reduction gw gd name nml dt ins owflag
    month ow light fs dv hout hdiag hins
  refine ⟨?_, ?_, ?_⟩
  · intro h0
    rw [hred true proc, hrf, h0]
    exact ⟨rfl, rfl⟩
  · intro h1
    rw [hred true proc, hrf, h1]
    simp [launch_launchStage]
  · rw [hred false proc]
    simp [launch_launchStage]

/-- **C1** witness: month 2 with no archived month-1 restart exits
fatally with no launch; with `res_1.cpio` present it launches using
exactly that artifact; a cold month-1 run launches with no restart. -/
theorem claim_C1_witness :
    (expC.run 2 none true false false procOk fs0).result = .systemExit 2 ∧
    (expC.run 2 none true false false procOk fs0).launch = none ∧
    (expC.run 2 none true false false procOk fsR).launch =
      some ⟨2, some (expC.get_restart_file 1)⟩ ∧
    (expC.run 1 none false false false procOk fs0).launch = some ⟨1, none⟩ := by
  have h1 := claim_C1_restart_dependency ["work"] ["data"] "exp1" nmlC dtC [] false
    2 false false procOk fs0 (true, dtC.files.map Prod.snd) expC rfl rfl rfl (by simp)
  have h2 := claim_C1_restart_dependency ["work"] ["data"] "exp1" nmlC dtC [] false
    2 false false procOk fsR (true, dtC.files.map Prod.snd) expC rfl rfl rfl (by simp)
  have h3 := claim_C1_restart_dependency ["work"] ["data"] "exp1" nmlC dtC [] false
    1 false false procOk fs0 (true, dtC.files.map Prod.snd) expC rfl rfl rfl (by simp)
  exact ⟨(h1.1 rfl).1, (h1.1 rfl).2, h2.2.1 rfl, h3.2.2⟩

/-- **C2** (amended): for a launched run, the scratch run directory is
cleared when `run` *returns* — on success (`return True`) and on user
cancellation (`KeyboardInterrupt`, `return False`) — but when an
exception propagates out of `run` the scratch area is *not* cleared: the
process-level failure path re-raises with the rendered configuration
still sitting in the run directory (and likewise the unguarded
light-policy prune failure). -/
theorem claim_C2_amended (gw gd : Path) (name : String)
    (nml : Namelist) (dt : DiagTable) (ins : List Path) (owflag : Bool)
    (month : Int) (ow light ur : Bool) (fs : FS)
    (dv : Bool × List FileRec) (e : Experiment)
    (he : e = mkExperiment gw gd name nml dt ins owflag)
    (hout : fs.isdir (e.outdir month) = false)
    (hdiag : write_diag_table dt nml = .ok dv)
    (hins : ∀ f ∈ ins, fs.isfile f = true)
    (hres : ur = false ∨ fs.isfile (e.get_restart_file (month - 1)) = true) :
    ((e.run month none ur ow light .interrupt fs).result = .returned false ∧
      scratchClean e (e.run month none ur ow light .interrupt fs).fs = true) ∧
    ((e.run month none ur ow light .failed fs).result = .raised .procError ∧
      scratchClean e (e.run month none ur ow light .failed fs).fs = false) ∧
    (∀ sf nf : List String,
      ((e.run month none ur ow light (.ok sf nf) fs).result = .returned true ∨
       (e.run month none ur ow light (.ok sf nf) fs).result = .raised .shError) ∧
      ((e.run month none ur ow light (.ok sf nf) fs).result = .returned true →
        scratchClean e (e.run month none ur ow light (.ok sf nf) fs).fs = true)) := by
  subst he
  obtain ⟨fs2, hrf, hinml, hred⟩ := run_prep_reduction gw gd name nml dt ins owflag
    month ow light fs dv hout hdiag hins
  have hlaunch : ∀ proc : ProcOutcome,
      (mkExperiment gw gd name nml dt ins owflag).run month none ur ow light proc fs =
        (mkExperiment gw gd name nml dt ins owflag).launchStage month
          (if ur then
            some ((mkExperiment gw gd name nml dt ins owflag).get_restart_file (month - 1))
           else none) light proc fs2 := by
    intro proc
    rw [hred ur proc]
    cases ur with
    | false => simp
    | true =>
      rcases hres with h | h
      · exact absurd h (by simp)
      · rw [hrf, h]
        simp
  refine ⟨?_, ?_, ?_⟩
  · rw [hlaunch .interrupt, launchStage_interrupt]
    exact ⟨rfl, scratchClean_clear_rundir _ _⟩
  · rw [hlaunch .failed, launchStage_failed]
    refine ⟨rfl, ?_⟩
    exact scratchClean_false_of_file _ _
      (pjoin (mkExperiment gw gd name nml dt ins owflag).rundir "input.nml")
      ((isfile_addFile _ _ _).mpr (Or.inl hinml))
      (underPath_append _ _)
  · intro sf nf
    rw [hlaunch (.ok sf nf)]
    exact launchStage_ok_outcome _ _ _ _ _ _ _

/-- **C2** witness: the three launched outcomes of a concrete cold run —
cancellation returns `False` with a clean scratch area, a process failure
propagates with the scratch area still populated, and the successful run
returns `True` with a clean scratch area. -/
theorem claim_C2_witness :
    ((expC.run 1 none false false false .interrupt fs0).result = .returned false ∧
      scratchClean expC (expC.run 1 none false false false .interrupt fs0).fs = true) ∧
    ((expC.run 1 none false false false .failed fs0).result = .raised .procError ∧
      scratchClean expC (expC.run 1 none false false false .failed fs0).fs = false) ∧
    (((expC.run 1 none false false false (.ok ["atmos.res.nc"] ["daily.nc"]) fs0).result =
        .returned true ∨
      (expC.run 1 none false false false (.ok ["atmos.res.nc"] ["daily.nc"]) fs0).result =
        .raised .shError) ∧
     ((expC.run 1 none false false false (.ok ["atmos.res.nc"] ["daily.nc"]) fs0).result =
        .returned true →
      scratchClean expC (expC.run 1 none false false false
        (.ok ["atmos.res.nc"] ["daily.nc"]) fs0).fs = true)) := by
  have h := claim_C2_amended ["work"] ["data"] "exp1" nmlC dtC [] false
    1 false false false fs0 (true, dtC.files.map Prod.snd) expC rfl rfl rfl
    (by simp) (Or.inl rfl)
  exact ⟨h.1, h.2.1, h.2.2 ["atmos.res.nc"] ["daily.nc"]⟩

end Gfdl
